import Mathlib

/-!
Verification of the response-generation orchestrator of the Gemini Advanced
Chat repository. The definitions below are a shallow embedding of the
TypeScript source:

  src/services/geminiService.ts      (context window manager, legacy stream path)
  src/services/aiProviderService.ts  (provider dispatch, adapters, web search)
  src/components/Login.tsx           (consumer-side accumulation of fragments)

JavaScript strings are modelled as Lean `String`; JS truthiness of a string is
"the string is non-empty"; optional fields (`a?.b`) are modelled with `Option`.
-/

namespace GemChat
/-- JS helper: `s.endsWith(t)` — suffix test on the character sequence. -/
def strEndsWith (s t : String) : Bool :=
  List.isSuffixOf t.data s.data

/-- JS helper: `s.includes(t)` — substring (infix) test on the character sequence. -/
def strIncludes (s t : String) : Bool :=
  decide (t.data <:+: s.data)

/-- JS truthiness of `text && text.trim()`: the string contains a
non-whitespace character (empty and whitespace-only strings are falsy). -/
def isNonBlank (s : String) : Bool :=
  s.data.any (fun c => !c.isWhitespace)

/-- JS `s.trim()`: remove leading and trailing whitespace. -/
def jsTrim (s : String) : String :=
  ⟨(s.data.dropWhile Char.isWhitespace).reverse.dropWhile Char.isWhitespace |>.reverse⟩

/-- JS truthiness of an optional string (`undefined`, `null` and `""` are falsy). -/
def jsTruthyOpt (o : Option String) : Bool :=
  match o with
  | some s => s ≠ ""
  | none => false

/-- JS `a || b` on an optional string field: the default `b` is used when the
field is absent or empty (falsy). Models `web.title || 'Web Source'` etc. -/
def jsOr (o : Option String) (d : String) : String :=
  match o with
  | some s => if s = "" then d else s
  | none => d

/-- `types.ts`: `enum Role { USER = 'user', ASSISTANT = 'assistant', SYSTEM = 'system' }`. -/
inductive Role where
  | user
  | assistant
  | system
deriving DecidableEq, Repr

/-- The string value of a `Role`, as in `types.ts`. -/
def Role.toStr : Role → String
  | .user => "user"
  | .assistant => "assistant"
  | .system => "system"

/-- `types.ts`: `interface Source { title; uri }`; the runtime objects built by
the adapters additionally carry a `snippet` string, which we include. -/
structure Source where
  title : String
  uri : String
  snippet : String
deriving DecidableEq, Repr

/-- `types.ts`: `interface Message { role; content; sources? }`. -/
structure Message where
  role : Role
  content : String
  sources : Option (List Source) := none
deriving DecidableEq, Repr

/-- geminiService.ts `estimateTokens`: `Math.ceil(message.content.length / 4)`. -/
def estimateTokens (m : Message) : Nat :=
  (m.content.length + 3) / 4

/-- Total estimated token cost of a list of messages. -/
def totalTokens (l : List Message) : Nat :=
  (l.map estimateTokens).sum

/-- The backward walk of geminiService.ts `manageContextWindow`: `rev` is the
not-yet-visited history in most-recent-first order, `total` the accumulated
token estimate, `acc` the chronologically ordered window built so far
(`contextHistory`, extended by `unshift`). The loop breaks before adding a
message that would exceed `maxTokens`, unless the window is still empty. -/
def manageGo (maxTokens : Nat) : List Message → Nat → List Message → List Message
  | [], _, acc => acc
  | m :: rest, total, acc =>
    if total + estimateTokens m > maxTokens ∧ acc ≠ [] then acc
    else manageGo maxTokens rest (total + estimateTokens m) (m :: acc)

/-- geminiService.ts `manageContextWindow(history, maxTokens)`; the guard
models `if (history.length === 0) return history`. -/
def manageContextWindow (history : List Message) (maxTokens : Nat) : List Message :=
  if history = [] then history
  else manageGo maxTokens history.reverse 0 []

/-! ## Streaming merger (Gemini adapter) and caller-side consumer -/

/-- One normalized fragment yielded to the caller: `{text?, sources?}`. -/
structure Fragment where
  text : Option String := none
  sources : Option (List Source) := none
deriving DecidableEq

/-- The `web` field of a grounding chunk; all sub-fields are optional in the
backend payload. -/
structure WebInfo where
  title : Option String := none
  uri : Option String := none
  snippet : Option String := none
deriving DecidableEq

/-- One entry of `groundingMetadata.groundingChunks`. -/
structure GroundingChunk where
  web : Option WebInfo := none
deriving DecidableEq

/-- One chunk of the Gemini stream: a text delta and the
`groundingMetadata.groundingChunks` array. Grounding metadata that is absent,
or present without a `groundingChunks` field, is modelled as `none`
(observably identical: in both cases no `{sources}` fragment is produced). -/
structure GemChunk where
  text : Option String := none
  groundingChunks : Option (List GroundingChunk) := none
deriving DecidableEq

/-- aiProviderService.ts `generateGeminiResponse`, source extraction from
`groundingMetadata.groundingChunks` (identical code in geminiService.ts):
chunks without a `web` field are dropped (`map` to `null`, then
`filter(Boolean)`); missing or empty fields default via `||` to
`'Web Source'`, `'#'` and `''`. -/
def extractSources (chunks : List GroundingChunk) : List Source :=
  chunks.filterMap fun c =>
    c.web.map fun w =>
      ⟨jsOr w.title "Web Source", jsOr w.uri "#", jsOr w.snippet ""⟩

/-- The fragments produced for one stream chunk by the `for await` body of
`generateGeminiResponse`: the text delta is yielded first (immediately) when
`text && text.trim()` is truthy, then one `{sources}` fragment when the
grounding metadata yields at least one extractable source. -/
def chunkFragments (c : GemChunk) : List Fragment :=
  (match c.text with
   | some t => if isNonBlank t then [⟨some t, none⟩] else []
   | none => []) ++
  (match c.groundingChunks with
   | some gl =>
     if extractSources gl = [] then [] else [⟨none, some (extractSources gl)⟩]
   | none => [])

/-- The merged fragment sequence produced by the streaming loop of
`generateGeminiResponse` over the delivered chunks. -/
def mergeGemini (chunks : List GemChunk) : List Fragment :=
  chunks.flatMap chunkFragments

/-- Concatenation of a list of strings in order. -/
def concatAll : List String → String
  | [] => ""
  | s :: rest => s ++ concatAll rest

/-- The backend's full text: every chunk's text delta concatenated in delivery
order (an absent delta contributes nothing). -/
def backendText (chunks : List GemChunk) : String :=
  concatAll (chunks.map fun c => c.text.getD "")

/-- Concatenation of the text carried by a fragment sequence. -/
def fragTextConcat (frags : List Fragment) : String :=
  concatAll (frags.map fun f => f.text.getD "")

/-- The in-flight assistant message state built by the consumer loop in
Login.tsx `handleSend` / `handleRetry`: accumulated content and sources. -/
structure Accum where
  content : String := ""
  sources : List Source := []
deriving DecidableEq

/-- One iteration of the consumer loop (Login.tsx, identical in `handleSend`
and `handleRetry`): a non-blank text delta is appended unless the content
already ends with it; sources are appended after dropping those whose `uri`
is already present, the `existingUris` set being computed once per fragment. -/
def stepAccum (a : Accum) (f : Fragment) : Accum :=
  let a1 : Accum :=
    match f.text with
    | some t =>
      if isNonBlank t && !strEndsWith a.content t then ⟨a.content ++ t, a.sources⟩
      else a
    | none => a
  match f.sources with
  | some ss =>
    ⟨a1.content, a1.sources ++ ss.filter (fun s => !(a1.sources.map Source.uri).contains s.uri)⟩
  | none => a1

/-- The consumer's accumulated assistant message after draining a merged
fragment sequence, starting from the empty placeholder. -/
def consume (frags : List Fragment) : Accum :=
  frags.foldl stepAccum ⟨"", []⟩

/-- A chunk's text delta is well formed when it is absent, empty, or contains
a non-whitespace character (i.e. it is not a non-empty all-whitespace string,
which the merger would silently drop). -/
def textOk (c : GemChunk) : Bool :=
  match c.text with
  | some t => t = "" || isNonBlank t
  | none => true

/-- Along a fragment sequence starting from accumulated content `acc`: every
text delta is non-blank and never a suffix of the content accumulated so far
— the condition under which the consumer's duplicate-suppression check
(`content.endsWith(chunk)`) never drops a delta. -/
def noEcho : String → List Fragment → Bool
  | _, [] => true
  | acc, f :: fs =>
    match f.text with
    | some t => isNonBlank t && !strEndsWith acc t && noEcho (acc ++ t) fs
    | none => noEcho acc fs

/-! ## Source deduplication by uri (C3) and Gemini source defaulting (C10) -/

/-- A fragment whose own source batch carries pairwise-distinct uris. -/
def fragSourcesOk (f : Fragment) : Bool :=
  match f.sources with
  | some ss => decide ((ss.map Source.uri).Nodup)
  | none => true

/-! ## Provider dispatch, search augmentation, failure recovery -/

/-- `types.ts` `enum AIProvider`. -/
inductive AIProvider where
  | gemini
  | openai
  | custom
deriving DecidableEq

/-- `types.ts` `enum SearchProvider`. -/
inductive SearchProvider where
  | noneP
  | gemini
  | tavily
  | serpapi
deriving DecidableEq

/-- `types.ts` `interface SearchProviderConfig`. -/
structure SearchProviderConfig where
  provider : SearchProvider
  apiKey : Option String := none
  isDefault : Option Bool := none
deriving DecidableEq

/-- A provider-format message as produced by `convertMessages`: a role string
and the content. -/
structure CMsg where
  role : String
  content : String
deriving DecidableEq

/-- aiProviderService.ts `convertMessages`: Gemini has no system role, so
system messages become user messages with a `[SYSTEM CONTEXT]` marker and
other roles map to `user`/`model`; the OpenAI-compatible branch keeps the
role strings unchanged. -/
def convertMessages (msgs : List Message) (p : AIProvider) : List CMsg :=
  match p with
  | .gemini =>
    msgs.map fun m =>
      if m.role = Role.system then ⟨"user", "[SYSTEM CONTEXT] " ++ m.content⟩
      else ⟨if m.role = Role.user then "user" else "model", m.content⟩
  | .openai | .custom =>
    msgs.map fun m => ⟨m.role.toStr, m.content⟩

/-- webSearchService `interface SearchResult`. -/
structure SearchResult where
  title : String
  url : String
  snippet : String
  publishedDate : Option String := none
deriving DecidableEq

/-- webSearchService `interface SearchResponse`. -/
structure SearchResponse where
  results : List SearchResult
  query : String
deriving DecidableEq

/-- Outcome of one call to the external search HTTP backend (Tavily or
SerpAPI), supplied as an oracle: the thrown error message or the transformed
result list. -/
abbrev SearchOracle := Except String (List SearchResult)

/-- webSearchService `performWebSearch(query)`: dispatch on the active search
provider, returned together with the number of external search-API calls
made. Tavily/SerpAPI throw without a truthy apiKey and otherwise make one
external call; the Gemini (and default) branch returns `{query, results: []}`
with no external call, since Gemini uses built-in search. -/
def performWebSearch (active : SearchProviderConfig) (query : String)
    (ext : SearchOracle) : Except String SearchResponse × Nat :=
  match active.provider with
  | .tavily =>
    if jsTruthyOpt active.apiKey then
      match ext with
      | .ok rs => (.ok ⟨rs, query⟩, 1)
      | .error e => (.error e, 1)
    else (.error "Tavily API key is required for web search", 0)
  | .serpapi =>
    if jsTruthyOpt active.apiKey then
      match ext with
      | .ok rs => (.ok ⟨rs, query⟩, 1)
      | .error e => (.error e, 1)
    else (.error "SerpAPI key is required for web search", 0)
  | _ => (.ok ⟨[], query⟩, 0)

/-- One enumerated entry of the search-context block:
`index+1. **title** / Summary / Source`. -/
def resultEntry (idx : Nat) (r : SearchResult) : String :=
  toString (idx + 1) ++ ". **" ++ r.title ++ "**\n   Summary: " ++ r.snippet ++
    "\n   Source: " ++ r.url ++ "\n   "

/-- The synthetic search-context message content built by
`generateOpenAIResponse`: the literal instruction that search results are
authoritative and available, the current date (the long and ISO renderings of
the clock are inputs here), the echoed query and the enumerated results. -/
def searchContextText (dateLong dateIso query : String)
    (results : List SearchResult) : String :=
  "IMPORTANT: Web search has been performed and current information is available below. You DO have access to recent web search results for this query. Please use this information to provide a comprehensive, up-to-date answer.\n\nCURRENT DATE: "
    ++ dateLong ++ " (" ++ dateIso ++ ")\n\n🔍 SEARCH RESULTS FOR: \"" ++ query
    ++ "\"\n\n"
    ++ String.intercalate "\n" (results.enum.map fun p => resultEntry p.1 p.2)
    ++ "\n\nBased on these search results and the current date above, please provide a detailed and current response. Do not claim you lack browsing access - you have current web information above."

/-- Result of the search-augmentation preamble of `generateOpenAIResponse`:
the captured `searchResults`, the `enhancedMessages` to be sent to the
backend, the number of `performWebSearch` invocations and of external
search-API calls. -/
structure SearchPhase where
  results : List SearchResult
  enhanced : List CMsg
  invocations : Nat
  externalCalls : Nat
deriving DecidableEq

/-- The search preamble of `generateOpenAIResponse`: when web search is
requested and the active search provider is not the Gemini built-in one, the
last user message's content is searched; non-empty results produce one
synthetic system message inserted before the last user message
(`[...messages.slice(0, -1), context, lastUserMessage]`); an empty result
list, a thrown search error, a missing or empty query all leave the message
list unchanged. -/
def oaiSearchPhase (msgs : List CMsg) (useWebSearch : Bool)
    (active : SearchProviderConfig) (ext : SearchOracle)
    (dateLong dateIso : String) : SearchPhase :=
  if useWebSearch && !(active.provider == SearchProvider.gemini) then
    match (msgs.filter fun m => m.role == "user").getLast? with
    | some u =>
      if u.content ≠ "" then
        match performWebSearch active u.content ext with
        | (.ok resp, n) =>
          if resp.results = [] then ⟨resp.results, msgs, 1, n⟩
          else
            ⟨resp.results,
              msgs.dropLast ++
                [⟨"system", searchContextText dateLong dateIso u.content resp.results⟩, u],
              1, n⟩
        | (.error _, n) => ⟨[], msgs, 1, n⟩
      else ⟨[], msgs, 0, 0⟩
    | none => ⟨[], msgs, 0, 0⟩
  else ⟨[], msgs, 0, 0⟩

/-- One backend request issued by the OpenAI-compatible adapter. -/
structure Req where
  streaming : Bool
  model : String
  msgs : List CMsg
deriving DecidableEq

/-- The OpenAI-compatible backend as a deterministic oracle: the delta
contents delivered by the streaming call before it ends or raises, and the
result of a non-streaming call for the same request. -/
structure OAIBackend where
  deltas : List (Option String)
  streamErr : Option String
  nonStream : Except String (Option String)

/-- The classified error text yielded when the non-streaming fallback also
fails (`generateOpenAIResponse`, final catch). -/
def oaiFallbackText (modelId msg : String) : String :=
  if strIncludes msg "500" then
    "⚠️ The " ++ modelId ++ " model is currently experiencing server issues (500 error). This appears to be a temporary problem with the API provider. Please try again later or switch to a different model."
  else if strIncludes msg "rate limit" then
    "⚠️ Rate limit exceeded for " ++ modelId ++ ". Please wait a moment before trying again."
  else if strIncludes msg "authentication" || strIncludes msg "401" then
    "⚠️ Authentication error with " ++ modelId ++ ". Please check your API key configuration."
  else
    "⚠️ Error communicating with " ++ modelId ++ ": " ++ msg

/-- Result of the request/consume/fallback part of `generateOpenAIResponse`. -/
structure StreamPhase where
  fragments : List Fragment
  requests : List Req
  fallbackCalls : Nat
deriving DecidableEq

/-- The request/consume/fallback part of `generateOpenAIResponse`: streaming
is used unless the model id marks a provider with known streaming issues
(`hyperbolic`, `gpt-oss`); every truthy delta is yielded as it arrives and the
search-source batch afterwards; on any error the identical request is
reissued exactly once without streaming, a successful fallback yielding the
complete text as a single fragment followed by the source batch; a failed
fallback yields one classified error fragment, with no rethrow and no
further retry. -/
def oaiStreamPhase (modelId : String) (enhanced : List CMsg)
    (searchResults : List SearchResult) (b : OAIBackend) : StreamPhase :=
  let useStreaming := !(strIncludes modelId "hyperbolic" || strIncludes modelId "gpt-oss")
  let batchFrag : List Fragment :=
    if searchResults = [] then []
    else [⟨none, some (searchResults.map fun r => ⟨r.title, r.url, r.snippet⟩)⟩]
  let deltaFrags : List Fragment :=
    b.deltas.filterMap fun d => d.bind fun t => if t = "" then none else some ⟨some t, none⟩
  let fallbackFrags : List Fragment :=
    match b.nonStream with
    | .ok (some c) => if c = "" then [] else ⟨some c, none⟩ :: batchFrag
    | .ok none => []
    | .error e2 => [⟨some (oaiFallbackText modelId e2), none⟩]
  if useStreaming then
    match b.streamErr with
    | none => ⟨deltaFrags ++ batchFrag, [⟨true, modelId, enhanced⟩], 0⟩
    | some _ =>
      ⟨deltaFrags ++ fallbackFrags,
        [⟨true, modelId, enhanced⟩, ⟨false, modelId, enhanced⟩], 1⟩
  else
    match b.nonStream with
    | .ok (some c) =>
      ⟨(if c = "" then [] else ⟨some c, none⟩ :: batchFrag), [⟨false, modelId, enhanced⟩], 0⟩
    | .ok none => ⟨[], [⟨false, modelId, enhanced⟩], 0⟩
    | .error _ =>
      ⟨fallbackFrags, [⟨false, modelId, enhanced⟩, ⟨false, modelId, enhanced⟩], 1⟩

/-- Full result of one `generateOpenAIResponse` call. -/
structure OAIResult where
  fragments : List Fragment
  enhanced : List CMsg
  searchInvocations : Nat
  externalSearchCalls : Nat
  requests : List Req
  fallbackCalls : Nat
deriving DecidableEq

/-- aiProviderService.ts `generateOpenAIResponse`: the search-augmentation
preamble followed by the streaming / fallback phase on the enhanced
messages. -/
def generateOpenAIResponse (modelId : String) (msgs : List CMsg)
    (useWebSearch : Bool) (active : SearchProviderConfig) (ext : SearchOracle)
    (dateLong dateIso : String) (b : OAIBackend) : OAIResult :=
  let s := oaiSearchPhase msgs useWebSearch active ext dateLong dateIso
  let p := oaiStreamPhase modelId s.enhanced s.results b
  ⟨p.fragments, s.enhanced, s.invocations, s.externalCalls, p.requests, p.fallbackCalls⟩

/-- The Gemini streaming backend as an oracle: the chunks delivered, an
optional error raised while consuming the stream, and the grounding chunks of
the awaited final response (inspected after the loop completes). -/
structure GemBackend where
  chunks : List GemChunk
  streamErr : Option String
  finalChunks : Option (List GroundingChunk)
deriving DecidableEq

/-- Result of one `generateGeminiResponse` call. -/
structure GemResult where
  fragments : List Fragment
  requests : List (List CMsg × Bool)
  thrown : Option String
deriving DecidableEq

/-- aiProviderService.ts `generateGeminiResponse`: one streaming request
(tools attached when web search is on), the delivered chunks merged (text
immediately, extracted sources per chunk), then — when the stream completed —
one more source batch from the final response. A stream error propagates
unchanged: this adapter has no fallback and never performs an external
search call. -/
def generateGeminiResponse (msgs : List CMsg) (useWebSearch : Bool)
    (b : GemBackend) : GemResult :=
  match b.streamErr with
  | some e => ⟨mergeGemini b.chunks, [(msgs, useWebSearch)], some e⟩
  | none =>
    let finalFrag : List Fragment :=
      match b.finalChunks with
      | some gl => if extractSources gl = [] then [] else [⟨none, some (extractSources gl)⟩]
      | none => []
    ⟨mergeGemini b.chunks ++ finalFrag, [(msgs, useWebSearch)], none⟩

/-- The web-search capability system message prepended for Gemini when
`useWebSearch` is on (aiProviderService.ts line 844). -/
def webSearchContextText : String :=
  "IMPORTANT: You have access to real-time web search capabilities through Google Search. When users ask about current events, recent news, weather, stock prices, or any time-sensitive information, you WILL automatically search the web to provide up-to-date and accurate information. Do not say you cannot access real-time information - you can and should use web search to answer current questions. Always provide the most recent and accurate information available through web search."

/-- Result of one `generateResponse` orchestrator call. -/
structure GenResult where
  fragments : List Fragment
  searchInvocations : Nat
  externalSearchCalls : Nat
  thrown : Option String
deriving DecidableEq

/-- aiProviderService.ts `generateResponse`: append the prompt as a user
turn, prepend the date-context (and, for Gemini with web search, the
capability) system messages, convert to provider format and dispatch on the
provider. The Gemini branch retries once without web search when the error
message mentions `googleSearchRetrieval` and never invokes `performWebSearch`;
the OpenAI/custom branch delegates to `generateOpenAIResponse`. -/
def generateResponse (provider : AIProvider) (history : List Message)
    (prompt : String) (useWebSearch : Bool) (dateLong dateIso : String)
    (active : SearchProviderConfig) (ext : SearchOracle) (modelId : String)
    (gem1 gem2 : GemBackend) (oai : OAIBackend) : GenResult :=
  let allMessages := history ++ [⟨Role.user, prompt, none⟩]
  let dateContext : Message :=
    ⟨Role.system, "Current date and time: " ++ dateLong ++ " (" ++ dateIso ++ ")", none⟩
  let systemMessages : List Message :=
    dateContext ::
      (if useWebSearch && (provider == AIProvider.gemini) then
        [⟨Role.system, webSearchContextText, none⟩]
      else [])
  let converted := convertMessages (systemMessages ++ allMessages) provider
  match provider with
  | .gemini =>
    let r1 := generateGeminiResponse converted useWebSearch gem1
    (match r1.thrown with
     | some e =>
       if useWebSearch && strIncludes e "googleSearchRetrieval" then
         let r2 := generateGeminiResponse converted false gem2
         ⟨r1.fragments ++ r2.fragments, 0, 0, r2.thrown⟩
       else ⟨r1.fragments, 0, 0, some e⟩
     | none => ⟨r1.fragments, 0, 0, none⟩)
  | .openai | .custom =>
    let r := generateOpenAIResponse modelId converted useWebSearch active ext
      dateLong dateIso oai
    ⟨r.fragments, r.searchInvocations, r.externalSearchCalls, none⟩

/-! ## Failure recovery: stream errors and the non-streaming fallback (C4) -/

/-- The classified error thrown by geminiService.ts `generateResponseStream`
when no fallback applies or the fallback fails (lines 380-395). -/
def classifyGeminiError (modelId e : String) : String :=
  if strIncludes e "model" && strIncludes e "not found" then
    "Model \"" ++ modelId ++ "\" is not available. Please try a different model."
  else if strIncludes e "quota" || strIncludes e "limit" then
    "API quota exceeded for model \"" ++ modelId ++ "\". Please try again later or use a different model."
  else if strIncludes e "permission" || strIncludes e "access" then
    "Access denied for model \"" ++ modelId ++ "\". Please check your API key permissions."
  else if strIncludes e "rate" then
    "Rate limit exceeded for model \"" ++ modelId ++ "\". Please wait a moment before trying again."
  else if strIncludes e "timeout" then
    "Request timed out for model \"" ++ modelId ++ "\". Please try again or use a different model."
  else e

/-- The per-chunk body of the geminiService.ts `generateResponseStream` loop:
every non-empty text delta is yielded (this path has no trim check), then the
extracted sources of the chunk's grounding metadata, when any. -/
def chunkFragmentsLegacy (c : GemChunk) : List Fragment :=
  (match c.text with
   | some t => if t = "" then [] else [⟨some t, none⟩]
   | none => []) ++
  (match c.groundingChunks with
   | some gl =>
     if extractSources gl = [] then [] else [⟨none, some (extractSources gl)⟩]
   | none => [])

/-- Outcome of one geminiService.ts `generateResponseStream` call. -/
structure GemLegacyResult where
  fragments : List Fragment
  fallbackCalls : Nat
  thrown : Option String
deriving DecidableEq

/-- geminiService.ts `generateResponseStream`, stream consumption and failure
handling (lines 301-396): the delivered chunks are merged; on a stream error
whose message contains `'timeout'` or `'stream'`, exactly one non-streaming
fallback call is made with the same `contents` and `config`, and truthy
fallback text is yielded as a single fragment (the call then succeeds);
otherwise — fallback failed, fallback text falsy, or any other error
message — the classified original error is thrown and no further attempt is
made. -/
def generateResponseStream (modelId : String) (chunks : List GemChunk)
    (streamErr : Option String) (nonStream : Except String (Option String)) :
    GemLegacyResult :=
  let frags := chunks.flatMap chunkFragmentsLegacy
  match streamErr with
  | none => ⟨frags, 0, none⟩
  | some e =>
    if strIncludes e "timeout" || strIncludes e "stream" then
      match nonStream with
      | .ok (some t) =>
        if t = "" then ⟨frags, 1, some (classifyGeminiError modelId e)⟩
        else ⟨frags ++ [⟨some t, none⟩], 1, none⟩
      | .ok none => ⟨frags, 1, some (classifyGeminiError modelId e)⟩
      | .error _ => ⟨frags, 1, some (classifyGeminiError modelId e)⟩
    else ⟨frags, 0, some (classifyGeminiError modelId e)⟩

/-! ## Title generation (C8) -/

/-- The double-quote character, written by code point to keep string scanning
simple. -/
def dquoteChar : Char := Char.ofNat 34

/-- JS `replace(/["*]/g, '')`: drop every double quote and asterisk. -/
def stripQuotesAndStars (s : String) : String :=
  ⟨s.data.filter fun c => !(c == dquoteChar || c == '*')⟩

/-- Title post-processing, shared by both adapters:
`text?.trim().replace(/["*]/g, '') || 'Untitled Chat'`. -/
def titleFromResponse (t? : Option String) : String :=
  match t? with
  | some t =>
    if stripQuotesAndStars (jsTrim t) = "" then "Untitled Chat"
    else stripQuotesAndStars (jsTrim t)
  | none => "Untitled Chat"

/-- aiProviderService.ts `generateGeminiTitle`: one non-streaming
`generateContent` call whose (optional) text is post-processed. The oracle
carries the backend outcome. -/
def generateGeminiTitle (backend : Except String (Option String)) :
    Except String String :=
  backend.map titleFromResponse

/-- aiProviderService.ts `generateOpenAITitle`: one non-streaming
`chat.completions.create` call whose (optional) content is post-processed. -/
def generateOpenAITitle (backend : Except String (Option String)) :
    Except String String :=
  backend.map titleFromResponse

/-- One request issued during title generation. -/
structure TitleReq where
  streaming : Bool
  searchAugmented : Bool
deriving DecidableEq

/-- Outcome of one `generateTitle` call: the settled result and the requests
issued. -/
structure TitleOutcome where
  result : Except String String
  requests : List TitleReq

/-- aiProviderService.ts `generateTitle` (lines 1229-1261). The `switch` sits
inside a `try`/`catch`, but each case returns the adapter promise **without
awaiting it**, so the `catch` only guards the synchronous part of the body: a
backend rejection escapes it and propagates to the caller (the well-known
missing `return await` behaviour of async functions). The truncated-title
fallback in the `catch` is reachable only for an unsupported provider value,
which cannot arise for the three-member enum. Each branch issues exactly one
non-streaming request with no search augmentation. -/
def generateTitle (provider : AIProvider)
    (backend : Except String (Option String)) : TitleOutcome :=
  match provider with
  | .gemini => ⟨generateGeminiTitle backend, [⟨false, false⟩]⟩
  | .openai | .custom => ⟨generateOpenAITitle backend, [⟨false, false⟩]⟩

/-- Login.tsx `handleSend` (title block): the caller consumes
`generateTitle(...)` and on rejection falls back to the truncated input,
`currentInput.substring(0, 40).trim() + '...'`. -/
def callerTitle (currentInput : String) (r : Except String String) : String :=
  match r with
  | .ok t => t
  | .error _ => jsTrim (currentInput.take 40) ++ "..."

theorem manageGo_suffix (B : Nat) (rev : List Message) (total : Nat) (acc : List Message) :
    manageGo B rev total acc <:+ (rev.reverse ++ acc) := by
  induction rev generalizing total acc with
  | nil => simp [manageGo]
  | cons m rest ih =>
    rw [manageGo]
    split
    · exact (List.suffix_append _ acc)
    · have h := ih (total + estimateTokens m) (m :: acc)
      have : rest.reverse ++ (m :: acc) = (m :: rest).reverse ++ acc := by
        simp
      rwa [this] at h

theorem manageGo_ne_nil (B : Nat) (rev : List Message) (total : Nat) (acc : List Message)
    (h : acc ≠ []) : manageGo B rev total acc ≠ [] := by
  induction rev generalizing total acc with
  | nil => simpa [manageGo] using h
  | cons m rest ih =>
    rw [manageGo]
    split
    · exact h
    · exact ih _ (m :: acc) (by simp)

theorem manageGo_stop (B : Nat) (rev : List Message) (total : Nat) (acc : List Message)
    (hne : acc ≠ []) (hgt : B < total) : manageGo B rev total acc = acc := by
  cases rev with
  | nil => rfl
  | cons m rest =>
    rw [manageGo]
    have : total + estimateTokens m > B ∧ acc ≠ [] := ⟨by omega, hne⟩
    simp [this]

theorem manageGo_bound (B : Nat) (rev : List Message) (total : Nat) (acc : List Message)
    (hacc : acc ≠ []) (hinv : totalTokens acc = total) (hle : total ≤ B) :
    totalTokens (manageGo B rev total acc) ≤ B := by
  induction rev generalizing total acc with
  | nil => simpa [manageGo, hinv] using hle
  | cons m rest ih =>
    rw [manageGo]
    split
    · omega
    · rename_i hcond
      have hle2 : total + estimateTokens m ≤ B := by
        by_contra hgt
        exact hcond ⟨by omega, hacc⟩
      refine ih (total + estimateTokens m) (m :: acc) (by simp) ?_ hle2
      simp [totalTokens] at hinv ⊢
      omega

/-- **C1.** For every history `H` and budget `B`, `manageContextWindow` returns
a contiguous chronological suffix of `H`, non-empty whenever `H` is non-empty,
whose total estimated token cost (each message costing
`ceil(content.length / 4)`) is at most `B` — except that the window may be the
single most recent message alone, which is kept even when its own estimate
exceeds `B`. -/
theorem contextWindow_suffix_nonempty_bounded (H : List Message) (B : Nat) :
    manageContextWindow H B <:+ H ∧
    (H ≠ [] → manageContextWindow H B ≠ []) ∧
    (totalTokens (manageContextWindow H B) ≤ B ∨
      manageContextWindow H B = H.getLast?.toList) := by
  rcases List.eq_nil_or_concat H with rfl | ⟨init, m, rfl⟩
  · simp [manageContextWindow, totalTokens]
  · simp only [List.concat_eq_append]
    have hne : (init ++ [m] : List Message) ≠ [] := by simp
    have hrev : (init ++ [m] : List Message).reverse = m :: init.reverse := by simp
    have hlast : (init ++ [m] : List Message).getLast? = some m := List.getLast?_concat _
    have hcnd : ¬(0 + estimateTokens m > B ∧ ([] : List Message) ≠ []) := by simp
    refine ⟨?_, ?_, ?_⟩
    · have h := manageGo_suffix B (init ++ [m]).reverse 0 []
      simp only [List.reverse_reverse, List.append_nil] at h
      unfold manageContextWindow
      rw [if_neg hne]
      exact h
    · intro _
      unfold manageContextWindow
      rw [if_neg hne, hrev, manageGo, if_neg hcnd]
      exact manageGo_ne_nil B init.reverse (0 + estimateTokens m) [m] (by simp)
    · unfold manageContextWindow
      rw [if_neg hne, hrev, manageGo, if_neg hcnd]
      by_cases hfit : estimateTokens m ≤ B
      · left
        exact manageGo_bound B init.reverse (0 + estimateTokens m) [m] (by simp)
          (by simp [totalTokens]) (by omega)
      · right
        rw [manageGo_stop B init.reverse (0 + estimateTokens m) [m] (by simp) (by omega)]
        rw [hlast]
        rfl

/-- Closed instance of `contextWindow_suffix_nonempty_bounded`, discharging its
hypothesis at a concrete two-message history and budget 1: the window is a
non-empty suffix and, being forced down to the single most recent (oversized)
message, falls under the single-message exception. -/
theorem contextWindow_witness :
    manageContextWindow [⟨Role.assistant, "Hi", none⟩, ⟨Role.user, "What is 2+2?", none⟩] 1 ≠ [] ∧
    (totalTokens (manageContextWindow [⟨Role.assistant, "Hi", none⟩, ⟨Role.user, "What is 2+2?", none⟩] 1) ≤ 1 ∨
      manageContextWindow [⟨Role.assistant, "Hi", none⟩, ⟨Role.user, "What is 2+2?", none⟩] 1 =
        ([⟨Role.assistant, "Hi", none⟩, ⟨Role.user, "What is 2+2?", none⟩] : List Message).getLast?.toList) :=
  ⟨(contextWindow_suffix_nonempty_bounded _ 1).2.1 (by simp),
   (contextWindow_suffix_nonempty_bounded _ 1).2.2⟩

theorem concatAll_append (l1 l2 : List String) :
    concatAll (l1 ++ l2) = concatAll l1 ++ concatAll l2 := by
  induction l1 with
  | nil => simp [concatAll]
  | cons s rest ih => simp [concatAll, ih, String.append_assoc]

theorem stepAccum_content (a : Accum) (f : Fragment) :
    (stepAccum a f).content =
      match f.text with
      | some t =>
        if isNonBlank t && !strEndsWith a.content t then a.content ++ t else a.content
      | none => a.content := by
  cases f with
  | mk t s =>
    cases t <;> cases s <;> simp [stepAccum] <;> split <;> simp

theorem consume_content_go (fs : List Fragment) (a : Accum)
    (h : noEcho a.content fs = true) :
    (fs.foldl stepAccum a).content = a.content ++ fragTextConcat fs := by
  induction fs generalizing a with
  | nil => simp [fragTextConcat, concatAll]
  | cons f fs ih =>
    rw [List.foldl_cons]
    cases hft : f.text with
    | none =>
      have hstep : (stepAccum a f).content = a.content := by
        rw [stepAccum_content, hft]
      rw [noEcho, hft] at h
      have := ih (stepAccum a f) (by rwa [hstep])
      rw [this, hstep]
      simp [fragTextConcat, concatAll, hft]
    | some t =>
      rw [noEcho, hft] at h
      simp only [Bool.and_assoc, Bool.and_eq_true] at h
      obtain ⟨hnb, hne, hrest⟩ := h
      have hstep : (stepAccum a f).content = a.content ++ t := by
        simp [stepAccum_content, hft, hnb, hne]
      have := ih (stepAccum a f) (by rwa [hstep])
      rw [this, hstep]
      simp [fragTextConcat, concatAll, hft, String.append_assoc]

theorem chunkFragments_textConcat (c : GemChunk) (hc : textOk c = true) :
    fragTextConcat (chunkFragments c) = c.text.getD "" := by
  have hmeta : ∀ o : Option (List GroundingChunk),
      fragTextConcat
        (match o with
         | some gl => if extractSources gl = [] then []
                      else [(⟨none, some (extractSources gl)⟩ : Fragment)]
         | none => []) = "" := by
    intro o
    cases o with
    | none => rfl
    | some gl =>
      by_cases h : extractSources gl = [] <;> simp [h, fragTextConcat, concatAll]
  have h2 := hmeta c.groundingChunks
  unfold chunkFragments
  cases hft : c.text with
  | none =>
    simp only [hft, List.nil_append, Option.getD_none]
    exact h2
  | some t =>
    unfold textOk at hc
    rw [hft] at hc
    simp only [hft, Option.getD_some]
    rcases Bool.or_eq_true _ _ |>.mp hc with ht | ht
    · have ht0 : t = "" := by simpa using ht
      subst ht0
      have hnb : isNonBlank "" = false := by decide
      simp only [hnb, Bool.false_eq_true, if_false, List.nil_append]
      exact h2
    · rw [if_pos ht]
      have happ : fragTextConcat ([(⟨some t, none⟩ : Fragment)] ++
          (match c.groundingChunks with
           | some gl => if extractSources gl = [] then []
                        else [(⟨none, some (extractSources gl)⟩ : Fragment)]
           | none => [])) = fragTextConcat [(⟨some t, none⟩ : Fragment)] ++
            fragTextConcat
              (match c.groundingChunks with
               | some gl => if extractSources gl = [] then []
                            else [(⟨none, some (extractSources gl)⟩ : Fragment)]
               | none => []) := by
        simp only [fragTextConcat, List.map_append, concatAll_append]
      rw [happ, h2]
      simp [fragTextConcat, concatAll]

theorem mergeGemini_textConcat :
    ∀ chunks : List GemChunk, chunks.all textOk = true →
      fragTextConcat (mergeGemini chunks) = backendText chunks := by
  intro chunks
  induction chunks with
  | nil => intro _; rfl
  | cons c cs ih =>
    intro hw
    rw [List.all_cons, Bool.and_eq_true] at hw
    obtain ⟨hc, hcs⟩ := hw
    rw [mergeGemini, List.flatMap_cons]
    have happ : fragTextConcat (chunkFragments c ++ cs.flatMap chunkFragments) =
        fragTextConcat (chunkFragments c) ++ fragTextConcat (cs.flatMap chunkFragments) := by
      simp only [fragTextConcat, List.map_append, concatAll_append]
    rw [happ, ← mergeGemini, chunkFragments_textConcat c hc, ih hcs]
    simp only [backendText, List.map_cons, concatAll]

/-- **C2 counterexample.** The claim fails as stated: for the backend fragment
sequence `["a", "a"]` the merger yields both deltas, but the consumer's
duplicate-suppression check (`content.endsWith(chunk)`) drops the second one,
so the accumulated content `"a"` differs from the backend's full text `"aa"`. -/
theorem mergeOrder_counterexample :
    ¬ ((consume (mergeGemini [⟨some "a", none⟩, ⟨some "a", none⟩])).content =
        backendText [⟨some "a", none⟩, ⟨some "a", none⟩]) := by
  decide

/-- **C2 (amended).** Every non-blank text delta is yielded immediately by the
merger (it heads the fragments of its chunk, before any metadata fragment);
and whenever every delta is empty or non-blank and no delta arrives while the
accumulated content already ends with it, the consumer's accumulated content
equals the backend's full text in backend order. -/
theorem mergeGemini_order_preservation :
    (∀ (c : GemChunk) (cs : List GemChunk) (t : String), c.text = some t →
        isNonBlank t = true → (mergeGemini (c :: cs)).head? = some ⟨some t, none⟩) ∧
    (∀ chunks : List GemChunk, chunks.all textOk = true →
        noEcho "" (mergeGemini chunks) = true →
        (consume (mergeGemini chunks)).content = backendText chunks) := by
  constructor
  · intro c cs t hft hnb
    rw [mergeGemini, List.flatMap_cons]
    unfold chunkFragments
    simp only [hft]
    rw [if_pos hnb]
    rfl
  · intro chunks hw hecho
    have h1 := consume_content_go (mergeGemini chunks) ⟨"", []⟩ hecho
    rw [consume, h1, mergeGemini_textConcat chunks hw]
    simp

/-- Closed instance of `mergeGemini_order_preservation` at the chunk sequence
`["Hel", metadata-only, "lo"]`, discharging both hypotheses by computation:
the accumulated content is the backend text `"Hello"`. -/
theorem mergeGemini_order_witness :
    (consume (mergeGemini [⟨some "Hel", none⟩,
        ⟨none, some [⟨some ⟨some "T", some "http://a", none⟩⟩]⟩,
        ⟨some "lo", none⟩])).content =
      backendText [⟨some "Hel", none⟩,
        ⟨none, some [⟨some ⟨some "T", some "http://a", none⟩⟩]⟩,
        ⟨some "lo", none⟩] :=
  mergeGemini_order_preservation.2 _ (by decide) (by decide)

theorem stepAccum_sources (a : Accum) (f : Fragment) :
    (stepAccum a f).sources =
      match f.sources with
      | some ss =>
        a.sources ++ ss.filter (fun s => !(a.sources.map Source.uri).contains s.uri)
      | none => a.sources := by
  cases f with
  | mk t s =>
    cases t <;> cases s <;> simp [stepAccum] <;> split <;> simp

theorem stepAccum_sources_nodup (a : Accum) (f : Fragment)
    (ha : ((a.sources.map Source.uri)).Nodup) (hf : fragSourcesOk f = true) :
    (((stepAccum a f).sources).map Source.uri).Nodup := by
  rw [stepAccum_sources]
  cases hfs : f.sources with
  | none => exact ha
  | some ss =>
    unfold fragSourcesOk at hf
    rw [hfs] at hf
    have hss : (ss.map Source.uri).Nodup := of_decide_eq_true hf
    rw [List.map_append, List.nodup_append]
    refine ⟨ha, ?_, ?_⟩
    · exact hss.sublist (List.Sublist.map Source.uri (List.filter_sublist ss))
    · intro u hu1 hu2
      rw [List.mem_map] at hu2
      obtain ⟨s, hsmem, hsuri⟩ := hu2
      rw [List.mem_filter] at hsmem
      have hnc := hsmem.2
      rw [Bool.not_eq_eq_eq_not, Bool.not_true] at hnc
      have hnotmem : s.uri ∉ List.map Source.uri a.sources := by simpa using hnc
      exact hnotmem (hsuri ▸ hu1)

theorem consume_go_nodup (frags : List Fragment) : ∀ a : Accum,
    ((a.sources.map Source.uri)).Nodup → frags.all fragSourcesOk = true →
    (((frags.foldl stepAccum a).sources).map Source.uri).Nodup := by
  induction frags with
  | nil => intro a ha _; simpa using ha
  | cons f fs ih =>
    intro a ha hall
    rw [List.all_cons, Bool.and_eq_true] at hall
    rw [List.foldl_cons]
    exact ih (stepAccum a f) (stepAccum_sources_nodup a f ha hall.1) hall.2

/-- **C3 counterexample.** The claim fails as stated: one merged fragment
whose own source batch contains two Sources with the same uri produces a
duplicated uri on the assistant message, because the `existingUris` set is
computed once per fragment and not updated inside the batch. -/
theorem sourceDedup_counterexample :
    ¬ (((consume [⟨none, some [⟨"X", "http://a", "s"⟩, ⟨"Y", "http://a", "t"⟩]⟩]).sources.map
        Source.uri).Nodup) := by
  decide

/-- **C3 (amended).** Provided every single fragment's own source batch has
pairwise-distinct uris, the Source list accumulated on the in-flight
assistant message never contains two Sources with the same uri; in
particular two fragments carrying Sources with an identical uri contribute
exactly one Source with that uri. -/
theorem sourceDedup_nodup (frags : List Fragment)
    (h : frags.all fragSourcesOk = true) :
    (((consume frags).sources).map Source.uri).Nodup :=
  consume_go_nodup frags ⟨"", []⟩ (by simp) h

/-- Closed instance of `sourceDedup_nodup`: two fragments whose Sources share
the uri `http://a` leave exactly one Source with that uri (the dedup-
idempotence scenario of the claim), the hypothesis discharged by computation. -/
theorem sourceDedup_witness :
    (((consume [⟨none, some [⟨"X", "http://a", "s"⟩]⟩,
        ⟨none, some [⟨"Y", "http://a", "t"⟩]⟩]).sources.map Source.uri).Nodup) ∧
    (consume [⟨none, some [⟨"X", "http://a", "s"⟩]⟩,
        ⟨none, some [⟨"Y", "http://a", "t"⟩]⟩]).sources.length = 1 :=
  ⟨sourceDedup_nodup _ (by decide), by decide⟩

/-- **C10 counterexample.** Two distinct grounding chunks both lacking a uri,
arriving in the same `groundingChunks` batch (hence one merged `{sources}`
fragment), both receive uri `'#'` but do **not** collapse to one Source: the
per-fragment dedup set is computed before the batch is appended. -/
theorem geminiDefaults_counterexample :
    ((consume [⟨none, some (extractSources
        [⟨some ⟨some "A", none, none⟩⟩, ⟨some ⟨some "B", none, none⟩⟩])⟩]).sources.map
      Source.uri) = ["#", "#"] := by
  decide

/-- **C10 (amended).** Grounding chunks lacking a `web` field are discarded;
every extracted Source has all three fields defined, a missing (or empty)
`web.title` defaulting to `'Web Source'`, a missing `web.uri` to `'#'`, and a
missing `web.snippet` to `''`; and two grounding chunks both lacking a uri
receive the same uri `'#'` and collapse to one Source under uri-based
deduplication when they arrive in separate fragments. -/
theorem geminiSourceDefaulting :
    (∀ cs : List GroundingChunk, extractSources (⟨none⟩ :: cs) = extractSources cs) ∧
    (∀ (w : WebInfo) (cs : List GroundingChunk),
        extractSources (⟨some w⟩ :: cs) =
          ⟨jsOr w.title "Web Source", jsOr w.uri "#", jsOr w.snippet ""⟩ :: extractSources cs) ∧
    (∀ w1 w2 : WebInfo, w1.uri = none → w2.uri = none →
        ((consume [⟨none, some (extractSources [⟨some w1⟩])⟩,
            ⟨none, some (extractSources [⟨some w2⟩])⟩]).sources.map Source.uri) = ["#"]) := by
  refine ⟨fun cs => rfl, fun w cs => rfl, ?_⟩
  intro w1 w2 h1 h2
  simp [consume, stepAccum, extractSources, jsOr, h1, h2]

/-- Closed instance of `geminiSourceDefaulting`, discharging its hypotheses at
two concrete uri-less grounding chunks delivered in separate fragments: one
`'#'` Source remains. -/
theorem geminiSourceDefaulting_witness :
    ((consume [⟨none, some (extractSources [⟨some ⟨some "A", none, none⟩⟩])⟩,
        ⟨none, some (extractSources [⟨some ⟨some "B", none, none⟩⟩])⟩]).sources.map
      Source.uri) = ["#"] :=
  geminiSourceDefaulting.2.2 ⟨some "A", none, none⟩ ⟨some "B", none, none⟩ rfl rfl

/-- **C5.** For every generation call dispatched to the Gemini adapter (the
provider variant with native search grounding), `performWebSearch` is never
invoked and no external search-API call is made, even with
`useWebSearch = true` — including on the retry-without-search path. -/
theorem geminiPathNeverInvokesSearch (history : List Message) (prompt : String)
    (dateLong dateIso : String) (active : SearchProviderConfig) (ext : SearchOracle)
    (modelId : String) (gem1 gem2 : GemBackend) (oai : OAIBackend) :
    (generateResponse AIProvider.gemini history prompt true dateLong dateIso
      active ext modelId gem1 gem2 oai).searchInvocations = 0 ∧
    (generateResponse AIProvider.gemini history prompt true dateLong dateIso
      active ext modelId gem1 gem2 oai).externalSearchCalls = 0 := by
  obtain ⟨chs, se, fin⟩ := gem1
  cases se with
  | none => exact ⟨rfl, rfl⟩
  | some e =>
    constructor <;>
    · simp only [generateResponse, generateGeminiResponse]
      split <;> rfl

/-- **C9.** With the Gemini built-in search provider active,
`performWebSearch(q)` returns `{query: q, results: []}` without any external
search-API call, and consequently the OpenAI-path generation call leaves the
message list un-augmented (no synthetic search-context message) even when
`useWebSearch = true`. -/
theorem geminiSearchProviderShortCircuit (key : Option String) (dflt : Option Bool)
    (q : String) (ext : SearchOracle) (modelId : String) (msgs : List CMsg)
    (uws : Bool) (dateLong dateIso : String) (b : OAIBackend) :
    performWebSearch ⟨SearchProvider.gemini, key, dflt⟩ q ext =
      (Except.ok ⟨[], q⟩, 0) ∧
    (generateOpenAIResponse modelId msgs uws ⟨SearchProvider.gemini, key, dflt⟩
      ext dateLong dateIso b).enhanced = msgs := by
  refine ⟨rfl, ?_⟩
  unfold generateOpenAIResponse oaiSearchPhase
  simp

theorem performWebSearch_ok_empty (active : SearchProviderConfig) (q : String)
    (ext : SearchOracle)
    (hext : (∃ e, ext = Except.error e) ∨ ext = Except.ok [])
    (resp : SearchResponse) (n : Nat)
    (h : performWebSearch active q ext = (Except.ok resp, n)) :
    resp.results = [] := by
  unfold performWebSearch at h
  rcases hext with ⟨e, rfl⟩ | rfl <;>
    cases hp : active.provider <;> rw [hp] at h
  all_goals
    (try (rcases Bool.eq_false_or_eq_true (jsTruthyOpt active.apiKey) with hk | hk <;>
      rw [hk] at h))
  all_goals simp_all
  all_goals (obtain ⟨h1, h2⟩ := h; rw [← h1])

theorem oaiSearchPhase_neutral (msgs : List CMsg) (uws : Bool)
    (active : SearchProviderConfig) (ext : SearchOracle) (dL dI : String)
    (hext : (∃ e, ext = Except.error e) ∨ ext = Except.ok []) :
    (oaiSearchPhase msgs uws active ext dL dI).results = [] ∧
    (oaiSearchPhase msgs uws active ext dL dI).enhanced = msgs := by
  unfold oaiSearchPhase
  split
  · cases hL : (msgs.filter fun m => m.role == "user").getLast? with
    | none => simp [hL]
    | some u =>
      by_cases hc : u.content = ""
      · simp [hL, hc]
      · cases hw : performWebSearch active u.content ext with
        | mk res n =>
          cases res with
          | error e2 => simp [hL, hc, hw]
          | ok resp =>
            have hre : resp.results = [] :=
              performWebSearch_ok_empty active u.content ext hext resp n hw
            simp [hL, hc, hw, hre]
  · exact ⟨rfl, rfl⟩

/-- **C7.** With web search requested, if the external search call fails or
returns an empty result list, the message list passed to the backend is
exactly the un-augmented input list, and the generation call proceeds exactly
as it would without search (same yielded fragments) — search failure never
aborts generation. -/
theorem searchFailureNeverAborts (modelId : String) (msgs : List CMsg)
    (active : SearchProviderConfig) (ext : SearchOracle) (dateLong dateIso : String)
    (b : OAIBackend)
    (hext : (∃ e, ext = Except.error e) ∨ ext = Except.ok []) :
    (generateOpenAIResponse modelId msgs true active ext dateLong dateIso b).enhanced =
      msgs ∧
    (generateOpenAIResponse modelId msgs true active ext dateLong dateIso b).fragments =
      (generateOpenAIResponse modelId msgs false active ext dateLong dateIso b).fragments := by
  have h1 := oaiSearchPhase_neutral msgs true active ext dateLong dateIso hext
  have h0 : oaiSearchPhase msgs false active ext dateLong dateIso = ⟨[], msgs, 0, 0⟩ := rfl
  constructor
  · show (oaiSearchPhase msgs true active ext dateLong dateIso).enhanced = msgs
    exact h1.2
  · show (oaiStreamPhase modelId (oaiSearchPhase msgs true active ext dateLong dateIso).enhanced
        (oaiSearchPhase msgs true active ext dateLong dateIso).results b).fragments =
      (oaiStreamPhase modelId (oaiSearchPhase msgs false active ext dateLong dateIso).enhanced
        (oaiSearchPhase msgs false active ext dateLong dateIso).results b).fragments
    rw [h1.1, h1.2, h0]

/-- Closed instance of `searchFailureNeverAborts` at a failing Tavily search:
the backend still receives the raw message list and yields the same
fragments as an unaugmented call. -/
theorem searchFailureNeverAborts_witness :
    (generateOpenAIResponse "gpt-4o" [⟨"user", "hi"⟩] true
      ⟨SearchProvider.tavily, some "k", none⟩ (Except.error "search down") "D" "I"
      ⟨[some "4"], none, Except.ok none⟩).enhanced = [⟨"user", "hi"⟩] ∧
    (generateOpenAIResponse "gpt-4o" [⟨"user", "hi"⟩] true
      ⟨SearchProvider.tavily, some "k", none⟩ (Except.error "search down") "D" "I"
      ⟨[some "4"], none, Except.ok none⟩).fragments =
    (generateOpenAIResponse "gpt-4o" [⟨"user", "hi"⟩] false
      ⟨SearchProvider.tavily, some "k", none⟩ (Except.error "search down") "D" "I"
      ⟨[some "4"], none, Except.ok none⟩).fragments :=
  searchFailureNeverAborts "gpt-4o" [⟨"user", "hi"⟩]
    ⟨SearchProvider.tavily, some "k", none⟩ (Except.error "search down") "D" "I"
    ⟨[some "4"], none, Except.ok none⟩ (Or.inl ⟨"search down", rfl⟩)

theorem filter_getLast_concat (pre : List CMsg) (u : CMsg) (hrole : u.role = "user") :
    ((pre ++ [u]).filter fun m => m.role == "user").getLast? = some u := by
  rw [List.filter_append]
  have h1 : ([u].filter fun m => m.role == "user") = [u] := by
    simp [List.filter_cons, hrole]
  rw [h1, List.getLast?_concat]

/-- **C6.** When the message list ends with the user message `u` that is the
search query, search augmentation succeeds and the result list is non-empty,
the message list sent to the backend equals the input list with exactly one
additional synthetic system-role message — whose content embeds the current
date, the authoritative-results instruction and the enumerated results —
inserted immediately before that final user message; all other messages are
unchanged and in their original order. -/
theorem searchAugmentationInsertsContext (pre : List CMsg) (u : CMsg)
    (active : SearchProviderConfig) (results : List SearchResult)
    (dateLong dateIso : String)
    (hrole : u.role = "user") (hq : u.content ≠ "")
    (hprov : active.provider = SearchProvider.tavily)
    (hkey : jsTruthyOpt active.apiKey = true)
    (hres : results ≠ []) :
    oaiSearchPhase (pre ++ [u]) true active (Except.ok results) dateLong dateIso =
      ⟨results,
        pre ++ [⟨"system", searchContextText dateLong dateIso u.content results⟩, u],
        1, 1⟩ := by
  have hL := filter_getLast_concat pre u hrole
  have hd : (pre ++ [u]).dropLast = pre := by simp
  unfold oaiSearchPhase performWebSearch
  rw [hprov, hL]
  simp [hkey, hq, hres, hd]

/-- Closed instance of `searchAugmentationInsertsContext`, discharging its
hypotheses at a concrete conversation and one search result: exactly one
synthetic system message appears, directly before the final user message. -/
theorem searchAugmentationInsertsContext_witness :
    oaiSearchPhase [⟨"system", "today"⟩, ⟨"user", "latest news"⟩] true
      ⟨SearchProvider.tavily, some "k", none⟩
      (Except.ok [⟨"T", "http://x", "sn", none⟩]) "Mon" "2026-01-01" =
      ⟨[⟨"T", "http://x", "sn", none⟩],
        [⟨"system", "today"⟩,
          ⟨"system", searchContextText "Mon" "2026-01-01" "latest news"
            [⟨"T", "http://x", "sn", none⟩]⟩,
          ⟨"user", "latest news"⟩],
        1, 1⟩ :=
  searchAugmentationInsertsContext [⟨"system", "today"⟩] ⟨"user", "latest news"⟩
    ⟨SearchProvider.tavily, some "k", none⟩ [⟨"T", "http://x", "sn", none⟩]
    "Mon" "2026-01-01" rfl (by decide) rfl (by decide) (by decide)

/-- **C4 counterexample.** The claim fails as stated: a stream error whose
message mentions neither `'timeout'` nor `'stream'` (here a quota error)
makes **zero** fallback attempts in the Gemini service path — the error is
classified and thrown instead, although a non-streaming call would have
succeeded. -/
theorem fallbackOnAnyError_counterexample :
    (generateResponseStream "gemini-2.5-flash" [] (some "API quota exceeded")
        (Except.ok (some "ok"))).fallbackCalls = 0 ∧
    (generateResponseStream "gemini-2.5-flash" [] (some "API quota exceeded")
        (Except.ok (some "ok"))).thrown.isSome = true := by
  constructor <;> decide

/-- **C4 (amended).** At most one fallback attempt is ever made per
generation call, in both paths. In the OpenAI-compatible path, any error
raised while consuming the streamed sequence triggers exactly one transition
to the non-streaming fallback, reissuing the identical request (same model,
same messages) to the same backend, and when the fallback succeeds its
complete text is yielded as a single `{text}` fragment (the source batch
following). In the Gemini service path the fallback fires exactly once for
errors whose message contains `'timeout'` or `'stream'` — a successful
fallback yielding the complete text as a single fragment — and never for any
other error, which is classified and rethrown with no fallback attempt. -/
theorem fallbackExactlyOnce :
    (∀ (modelId : String) (chunks : List GemChunk) (se : Option String)
        (ns : Except String (Option String)),
        (generateResponseStream modelId chunks se ns).fallbackCalls ≤ 1) ∧
    (∀ (modelId : String) (enhanced : List CMsg) (sr : List SearchResult)
        (b : OAIBackend),
        (oaiStreamPhase modelId enhanced sr b).fallbackCalls ≤ 1) ∧
    (∀ (modelId : String) (enhanced : List CMsg) (sr : List SearchResult)
        (b : OAIBackend) (e : String),
        b.streamErr = some e →
        (strIncludes modelId "hyperbolic" || strIncludes modelId "gpt-oss") = false →
        (oaiStreamPhase modelId enhanced sr b).requests =
          [⟨true, modelId, enhanced⟩, ⟨false, modelId, enhanced⟩] ∧
        (oaiStreamPhase modelId enhanced sr b).fallbackCalls = 1 ∧
        (∀ c : String, b.nonStream = Except.ok (some c) → c ≠ "" →
          (oaiStreamPhase modelId enhanced sr b).fragments =
            (b.deltas.filterMap fun d =>
              d.bind fun t => if t = "" then none else some ⟨some t, none⟩) ++
              ⟨some c, none⟩ ::
                (if sr = [] then []
                 else [⟨none, some (sr.map fun r => ⟨r.title, r.url, r.snippet⟩)⟩]))) ∧
    (∀ (modelId : String) (chunks : List GemChunk) (e : String)
        (ns : Except String (Option String)),
        ((strIncludes e "timeout" || strIncludes e "stream") = true →
          (generateResponseStream modelId chunks (some e) ns).fallbackCalls = 1) ∧
        ((strIncludes e "timeout" || strIncludes e "stream") = false →
          (generateResponseStream modelId chunks (some e) ns).fallbackCalls = 0) ∧
        (∀ t : String, ns = Except.ok (some t) → t ≠ "" →
          (strIncludes e "timeout" || strIncludes e "stream") = true →
          (generateResponseStream modelId chunks (some e) ns).fragments =
            chunks.flatMap chunkFragmentsLegacy ++ [⟨some t, none⟩] ∧
          (generateResponseStream modelId chunks (some e) ns).thrown = none)) := by
  refine ⟨?_, ?_, ?_, ?_⟩
  · intro modelId chunks se ns
    unfold generateResponseStream
    repeat' split
    all_goals (first | rfl | simp)
  · intro modelId enhanced sr b
    unfold oaiStreamPhase
    repeat' split
    all_goals (first | rfl | simp)
    all_goals (repeat' split)
    all_goals (first | rfl | simp)
  · intro modelId enhanced sr b e hse hstreaming
    unfold oaiStreamPhase
    rw [hstreaming, hse]
    refine ⟨rfl, rfl, ?_⟩
    intro c hns hc
    rw [hns]
    simp [hc]
  · intro modelId chunks e ns
    refine ⟨?_, ?_, ?_⟩
    · intro hcond
      simp only [generateResponseStream]
      rw [hcond]
      simp only [if_true]
      repeat' split
      all_goals rfl
    · intro hcond
      simp only [generateResponseStream]
      rw [hcond]
      rfl
    · intro t hns ht hcond
      simp only [generateResponseStream]
      rw [hcond, hns]
      simp [ht]

/-- Closed instance of `fallbackExactlyOnce` at a concrete streaming failure
in the OpenAI path: exactly one fallback request, identical to the streaming
one, is recorded. -/
theorem fallbackExactlyOnce_witness :
    (oaiStreamPhase "gpt-4o" [⟨"user", "hi"⟩] []
        ⟨[some "pa"], some "boom", Except.ok (some "ok")⟩).requests =
      [⟨true, "gpt-4o", [⟨"user", "hi"⟩]⟩, ⟨false, "gpt-4o", [⟨"user", "hi"⟩]⟩] ∧
    (oaiStreamPhase "gpt-4o" [⟨"user", "hi"⟩] []
        ⟨[some "pa"], some "boom", Except.ok (some "ok")⟩).fallbackCalls = 1 :=
  ⟨(fallbackExactlyOnce.2.2.1 "gpt-4o" [⟨"user", "hi"⟩] []
      ⟨[some "pa"], some "boom", Except.ok (some "ok")⟩ "boom" rfl (by decide)).1,
   (fallbackExactlyOnce.2.2.1 "gpt-4o" [⟨"user", "hi"⟩] []
      ⟨[some "pa"], some "boom", Except.ok (some "ok")⟩ "boom" rfl (by decide)).2.1⟩

/-- **C8.** `generateTitle` performs a single non-streaming request with no
search augmentation, and on backend failure it propagates the error rather
than returning a fallback title itself; the truncated-text fallback is
applied by the caller. -/
theorem generateTitle_singleCall_propagatesFailure (provider : AIProvider)
    (e : String) (input : String) :
    (generateTitle provider (Except.error e)).result = Except.error e ∧
    (∀ backend, (generateTitle provider backend).requests = [⟨false, false⟩]) ∧
    callerTitle input (Except.error e) = jsTrim (input.take 40) ++ "..." := by
  refine ⟨?_, ?_, rfl⟩
  · cases provider <;> rfl
  · intro backend
    cases provider <;> rfl

end GemChat
